import Mathlib

/-!
Shallow embedding of the approval / human-in-the-loop workflow core of the
llm-agent-workshop repository.

Two host variants of the repository are modelled:

* the interrupt/resume host, from src/langgraph_agent/trading_agent.py and
  src/langgraph_agent/trading_api.py (namespace InterruptHost below);
* the 2-second polling host, from src/langgraph-agent/session_6_mcp_host.py
  (namespace PollingHost below).

Python dicts are embedded as association lists with Python dict semantics:
keys are unique, insertion order is preserved, assignment to an existing key
overwrites in place, and deletion removes the key.  time.time() and datetime
timestamps are abstracted as natural-number clock values; uuid-based fresh
ids are passed in as explicit string parameters.  JSON payloads built by the
code are embedded as lists of key/value pairs.
-/

set_option maxHeartbeats 1000000

/-- A JSON scalar value, as produced by the json.dumps calls of the source. -/
inductive JValue where
  | str (s : String)
  | num (n : Nat)
  | bool (b : Bool)
deriving DecidableEq, Repr

/-- A (flat) JSON object: ordered key/value pairs. -/
abbrev JObj := List (String × JValue)

/-- Keys of an embedded JSON object / Python dict. -/
def keysOf {α : Type} (o : List (String × α)) : List String :=
  o.map (fun p => p.1)

/-- Python d.get(k): value of the first entry with key k, if any
(in a Python dict the key occurs at most once). -/
def lookup? {α : Type} : List (String × α) → String → Option α
  | [], _ => none
  | p :: tl, k => if p.1 == k then some p.2 else lookup? tl k

/-- Python k in d. -/
def containsKey {α : Type} : List (String × α) → String → Bool
  | [], _ => false
  | p :: tl, k => p.1 == k || containsKey tl k

/-- Python d[k] = v: overwrite in place if k is present, else append
(a Python dict holds each key at most once, so overwriting the first
occurrence is its semantics). -/
def dictInsert {α : Type} : List (String × α) → String → α → List (String × α)
  | [], k, v => [(k, v)]
  | p :: tl, k, v => if p.1 == k then (k, v) :: tl else p :: dictInsert tl k v

/-- Python d.pop(k, None) / del d[k]: remove the entry with key k
(keys are unique in a Python dict, so removing every occurrence is its
semantics). -/
def eraseKey {α : Type} (l : List (String × α)) (k : String) :
    List (String × α) :=
  l.filter (fun p => p.1 != k)

/-- request_id format of both hosts:
approval_{ticker}_{action}_{int(time.time())}_{uuid4().hex[:8]}. -/
def mkRequestId (ticker action : String) (now : Nat) (fresh : String) : String :=
  "approval_" ++ ticker ++ "_" ++ action ++ "_" ++ toString now ++ "_" ++ fresh

namespace InterruptHost

/-- The approval_request payload dict built by request_human_approval in
src/langgraph_agent/trading_agent.py (created_at, an ISO timestamp string in
the source, is abstracted as the clock value). -/
structure ApprovalRequest where
  request_id : String
  thread_id : String
  ticker : String
  action : String
  reason : String
  market_data : String
  timestamp : Nat
  status : String
  created_at : Nat
deriving DecidableEq, Repr

/-- Messages put on ui_message_queue by the modelled code paths (the
unmodelled agent-streaming paths enqueue further message types). -/
inductive UiMessage where
  | approvalRequest (data : ApprovalRequest)
deriving DecidableEq, Repr

/-- The module-level mutable state of trading_agent.py that the approval
broker logic reads and writes. -/
structure BrokerState where
  pending_approvals : List (String × String)
  pending_request_payloads : List (String × ApprovalRequest)
  ui_message_queue : List UiMessage
deriving DecidableEq, Repr

/-- _create_approval_response of trading_agent.py: builds the JSON object
returned by the HITL tool.  approval_token is added when approved is truthy
and request_id is a non-empty (truthy) string; error is added when the error
string is non-empty (truthy). -/
def create_approval_response (approved : Bool) (message : String)
    (request_id : String) (error : String) (now : Nat) : JObj :=
  [("approved", JValue.bool approved),
   ("message", JValue.str message),
   ("timestamp", JValue.num now)]
  ++ (if approved ∧ request_id ≠ "" then
        [("approval_token", JValue.str ("token_" ++ request_id ++ "_" ++ toString now))]
      else [])
  ++ (if error ≠ "" then [("error", JValue.str error)] else [])

/-- _emit_approval_request of trading_agent.py: drops any older pending
entries of the same thread from both maps, registers the new request, and
enqueues the approval_request broadcast. -/
def emit_approval_request (st : BrokerState) (req : ApprovalRequest) : BrokerState :=
  let removed := (st.pending_approvals.filter (fun p => p.2 == req.thread_id)).map
    (fun p => p.1)
  { pending_approvals :=
      dictInsert (st.pending_approvals.filter (fun p => p.2 != req.thread_id))
        req.request_id req.thread_id,
    pending_request_payloads :=
      dictInsert (st.pending_request_payloads.filter (fun p => !(removed.contains p.1)))
        req.request_id req,
    ui_message_queue := st.ui_message_queue ++ [UiMessage.approvalRequest req] }

/-- _get_pending_request_for_thread of trading_agent.py: first pending
request mapped to the thread, with its payload. -/
def get_pending_request_for_thread (st : BrokerState) (thread_id : String) :
    Option String × Option ApprovalRequest :=
  match st.pending_approvals.find? (fun p => p.2 == thread_id) with
  | some p => (some p.1, lookup? st.pending_request_payloads p.1)
  | none => (none, none)

/-- Result of one execution of the HITL tool body up to the interrupt()
call: either the tool returned immediately (invalid action, or the
RuntimeError branch when no thread id is set), or the graph run is
suspended at interrupt() on the given request. -/
inductive SubmitResult where
  | immediate (response : JObj)
  | suspended (request_id : String) (payload : ApprovalRequest)
deriving DecidableEq, Repr

/-- request_human_approval of trading_agent.py, first phase: the tool body
from entry up to the interrupt(approval_request) call.  ctx is the value of
the active_thread_context ContextVar; fresh is the uuid4().hex[:8] suffix.
When no thread id is set the RuntimeError is caught by the generic except
branch, which finds no pending entries for a None thread and returns the
error response. -/
def request_human_approval_submit (st : BrokerState)
    (ticker action reason market_data : String) (ctx : Option String)
    (now : Nat) (fresh : String) : BrokerState × SubmitResult :=
  if action != "BUY" && action != "SELL" then
    (st, SubmitResult.immediate (create_approval_response false
      "승인은 BUY/SELL 액션에만 필요합니다 (HOLD는 승인 불요)" "" "Invalid action" now))
  else
    match ctx with
    | none =>
        (st, SubmitResult.immediate (create_approval_response false
          "승인 요청 중 오류 발생" ""
          "thread_id를 찾을 수 없습니다. ContextVar가 설정되지 않았습니다." now))
    | some thread_id =>
        match get_pending_request_for_thread st thread_id with
        | (some existing_id, some existing_req) =>
            if existing_id != "" then
              (st, SubmitResult.suspended existing_id existing_req)
            else
              let request_id := mkRequestId ticker action now fresh
              let req : ApprovalRequest :=
                { request_id := request_id, thread_id := thread_id, ticker := ticker,
                  action := action, reason := reason, market_data := market_data,
                  timestamp := now, status := "pending", created_at := now }
              (emit_approval_request st req, SubmitResult.suspended request_id req)
        | _ =>
            let request_id := mkRequestId ticker action now fresh
            let req : ApprovalRequest :=
              { request_id := request_id, thread_id := thread_id, ticker := ticker,
                action := action, reason := reason, market_data := market_data,
                timestamp := now, status := "pending", created_at := now }
            (emit_approval_request st req, SubmitResult.suspended request_id req)

/-- The value handed back by interrupt() when the graph is resumed: either
the response dict built by handle_approval_response, or a value that is not
a dict. -/
inductive ResumeValue where
  | dict (approved : Bool) (request_id : String)
  | nonDict
deriving DecidableEq, Repr

/-- request_human_approval of trading_agent.py, second phase: from the
return of interrupt() to the tool's return value.  The pending entries of
the request are removed before the response JSON is produced. -/
def request_human_approval_finish (st : BrokerState) (request_id : String)
    (response : ResumeValue) (now : Nat) : BrokerState × JObj :=
  let st1 : BrokerState :=
    { st with pending_approvals := eraseKey st.pending_approvals request_id,
              pending_request_payloads := eraseKey st.pending_request_payloads request_id }
  match response with
  | ResumeValue.dict approved _ =>
      if approved then
        (st1, create_approval_response true "승인 완료" request_id "" now)
      else
        (st1, create_approval_response false "거래가 거부되었습니다" "" "" now)
  | ResumeValue.nonDict =>
      (st1, create_approval_response false "잘못된 승인 응답 형식" "" "Invalid response format" now)

/-- The dict returned by resume_agent_execution / run_trading_analysis
(status completed or interrupted, plus the thread id). -/
structure Outcome where
  status : String
  thread_id : String
deriving DecidableEq, Repr

/-- resume_agent_execution's return value on the completed path. -/
def resume_completed_outcome (thread_id : String) : Outcome :=
  { status := "completed", thread_id := thread_id }

/-- Direct websocket broadcasts sent by handle_approval_response of
trading_api.py. -/
inductive ApiBroadcast where
  | approvalProcessed (request_id : String) (approved : Bool)
  | approvalError (request_id : String) (error : String)
deriving DecidableEq, Repr

/-- Observable result of one call of handle_approval_response of
trading_api.py.  resume records the asyncio.create_task of
resume_agent_execution(thread_id, response), if one was scheduled.
returned is the Python return value of the coroutine: the source returns
None on every path, so it is always none here (an Outcome would be the
value if the handler returned one). -/
structure HandlerResult where
  state : BrokerState
  broadcasts : List ApiBroadcast
  resume : Option (String × ResumeValue)
  returned : Option Outcome
deriving DecidableEq, Repr

/-- handle_approval_response of trading_api.py: look up the thread of the
request; if the request is not pending, log and return; otherwise broadcast
approval_processed and schedule resume_agent_execution.  The pending maps
are deliberately not modified here (the tool itself cleans them up after
the interrupt resumes). -/
def handle_approval_response (st : BrokerState) (request_id : String)
    (approved : Bool) : HandlerResult :=
  match lookup? st.pending_approvals request_id with
  | none => { state := st, broadcasts := [], resume := none, returned := none }
  | some thread_id =>
      { state := st,
        broadcasts := [ApiBroadcast.approvalProcessed request_id approved],
        resume := some (thread_id, ResumeValue.dict approved request_id),
        returned := none }

/-- The except-branch cleanup of request_human_approval: on a generic
exception, every pending entry of the current thread is removed from both
maps (no-op when the ContextVar holds no thread). -/
def cleanup_thread (st : BrokerState) (ctx : Option String) : BrokerState :=
  match ctx with
  | none => st
  | some thread_id =>
      let removed := (st.pending_approvals.filter (fun p => p.2 == thread_id)).map
        (fun p => p.1)
      { st with
          pending_approvals := st.pending_approvals.filter (fun p => p.2 != thread_id),
          pending_request_payloads :=
            st.pending_request_payloads.filter (fun p => !(removed.contains p.1)) }

/-- One operation on the broker tables of trading_agent.py, as performed by
the host: a tool submission (phase one, up to interrupt), an approval
response from the websocket, the tool's cleanup after resuming, or the
except-branch cleanup. -/
inductive OpA where
  | submit (ticker action reason market_data : String) (ctx : Option String)
      (now : Nat) (fresh : String)
  | resolve (request_id : String) (approved : Bool)
  | toolFinish (request_id : String) (response : ResumeValue) (now : Nat)
  | toolError (ctx : Option String)

/-- Effect of one operation on the broker state. -/
def stepA (st : BrokerState) : OpA → BrokerState
  | OpA.submit ticker action reason market_data ctx now fresh =>
      (request_human_approval_submit st ticker action reason market_data ctx now fresh).1
  | OpA.resolve request_id approved => (handle_approval_response st request_id approved).state
  | OpA.toolFinish request_id response now =>
      (request_human_approval_finish st request_id response now).1
  | OpA.toolError ctx => cleanup_thread st ctx

/-- Freshness of the uuid-derived request id of a submit operation: the
generated id is not already a key of the pending table. -/
def freshOk (st : BrokerState) : OpA → Bool
  | OpA.submit ticker action _ _ _ now fresh =>
      !containsKey st.pending_approvals (mkRequestId ticker action now fresh)
      && !containsKey st.pending_request_payloads (mkRequestId ticker action now fresh)
  | _ => true

/-- The empty module-level state at interpreter start. -/
def initialBroker : BrokerState :=
  { pending_approvals := [], pending_request_payloads := [], ui_message_queue := [] }

/-- Broker states reachable from interpreter start by host operations with
fresh uuid suffixes. -/
inductive ReachableA : BrokerState → Prop where
  | init : ReachableA initialBroker
  | step (st : BrokerState) (op : OpA) (h : ReachableA st)
      (hf : freshOk st op = true) : ReachableA (stepA st op)

end InterruptHost

namespace PollingHost

/-- The approval_request payload dict built by request_human_approval in
src/langgraph-agent/session_6_mcp_host.py (created_at, an ISO timestamp
string in the source, is abstracted as the clock value). -/
structure ApprovalReq where
  request_id : String
  ticker : String
  action : String
  reason : String
  market_data : String
  timestamp : Nat
  status : String
  created_at : Nat
deriving DecidableEq, Repr

/-- The module-level pending_approvals and completed_approvals dicts of
session_6_mcp_host.py.  A completed entry holds the result dict built by
handle_approval_response. -/
structure HostState where
  pending_approvals : List (String × ApprovalReq)
  completed_approvals : List (String × JObj)
deriving DecidableEq, Repr

/-- Messages broadcast to the websocket connections by the modelled code
paths of session_6_mcp_host.py. -/
inductive BMessage where
  | approvalRequest (data : ApprovalReq)
  | approvalProcessed (request_id : String) (approved : Bool)
deriving DecidableEq, Repr

/-- Observable result of one call of handle_approval_response of
session_6_mcp_host.py.  returned is the Python return value of the
coroutine: the source returns None on every path, so it is always none
here (a Bool would be the value if the handler reported a success flag). -/
structure HandlerBResult where
  state : HostState
  broadcasts : List BMessage
  returned : Option Bool
deriving DecidableEq, Repr

/-- handle_approval_response of session_6_mcp_host.py: when the request is
pending, build the result dict (with an approval token when approved),
record it in completed_approvals, delete the pending entry and broadcast
approval_processed; otherwise do nothing. -/
def handle_approval_response (st : HostState) (req_id : String)
    (approved : Bool) (now : Nat) : HandlerBResult :=
  match lookup? st.pending_approvals req_id with
  | none => { state := st, broadcasts := [], returned := none }
  | some _req =>
      let result : JObj :=
        if approved then
          [("approved", JValue.bool true),
           ("message", JValue.str "승인 완료"),
           ("approval_token", JValue.str ("token_" ++ req_id ++ "_" ++ toString now)),
           ("timestamp", JValue.num now)]
        else
          [("approved", JValue.bool false),
           ("message", JValue.str "거래가 거부되었습니다"),
           ("timestamp", JValue.num now)]
      { state :=
          { pending_approvals := eraseKey st.pending_approvals req_id,
            completed_approvals := dictInsert st.completed_approvals req_id result },
        broadcasts := [BMessage.approvalProcessed req_id approved],
        returned := none }

/-- All approval responses delivered over the websocket during the i-th
2-second sleep of the polling loop, applied in order through
handle_approval_response.  The tick index doubles as the handler's clock. -/
def drainTick (sched : Nat → List (String × Bool)) (i : Nat) (st : HostState) :
    HostState :=
  (sched i).foldl (fun s p => (handle_approval_response s p.1 p.2 i).state) st

/-- The wait loop of request_human_approval of session_6_mcp_host.py:
while waited is below 300 seconds, break if the request left
pending_approvals, else sleep 2 seconds (during which the environment may
deliver responses) and retry.  fuel is the number of remaining loop
iterations (150 = 300 / 2 from the start); the returned number is the count
of completed sleep iterations, so elapsed time is twice that. -/
def pollLoop (rid : String) (sched : Nat → List (String × Bool)) :
    Nat → Nat → HostState → HostState × Nat
  | 0, i, st => (st, i)
  | k + 1, i, st =>
      if containsKey st.pending_approvals rid then
        pollLoop rid sched k (i + 1) (drainTick sched i st)
      else (st, i)

/-- The JSON object returned on the timeout branch. -/
def timeoutJson (fin : Nat) : JObj :=
  [("approved", JValue.bool false),
   ("error", JValue.str "승인 요청 시간 초과 (5분)"),
   ("timeout", JValue.bool true),
   ("timestamp", JValue.num fin)]

/-- The JSON object returned on the unknown-status branch. -/
def unknownJson (fin : Nat) : JObj :=
  [("approved", JValue.bool false),
   ("error", JValue.str "승인 상태를 확인할 수 없습니다"),
   ("timestamp", JValue.num fin)]

/-- The JSON object returned for a non BUY/SELL action. -/
def invalidActionJsonB (now : Nat) : JObj :=
  [("approved", JValue.bool false),
   ("error", JValue.str "승인은 BUY/SELL 액션에만 필요합니다"),
   ("timestamp", JValue.num now)]

/-- How one awaited request ended. -/
inductive AwaitOutcome where
  | timedOut (response : JObj)
  | resolved (response : JObj)
  | unknown (response : JObj)
deriving DecidableEq, Repr

/-- The code after the wait loop of request_human_approval: if the request
is still pending, delete it and return the timeout JSON; otherwise pop the
completed result (a falsy — empty — popped dict falls through to the
unknown-status JSON, mirroring the if result: check). -/
def await_finish (rid : String) (st : HostState) (fin : Nat) :
    HostState × AwaitOutcome :=
  if containsKey st.pending_approvals rid then
    ({ st with pending_approvals := eraseKey st.pending_approvals rid },
     AwaitOutcome.timedOut (timeoutJson fin))
  else
    let res := lookup? st.completed_approvals rid
    let st' : HostState :=
      { st with completed_approvals := eraseKey st.completed_approvals rid }
    match res with
    | some r =>
        if r.isEmpty then (st', AwaitOutcome.unknown (unknownJson fin))
        else (st', AwaitOutcome.resolved r)
    | none => (st', AwaitOutcome.unknown (unknownJson fin))

/-- The tool's overall result: returned immediately for a non BUY/SELL
action, or awaited a created request to one of the three endings. -/
inductive ToolRes where
  | immediate (response : JObj)
  | awaited (request_id : String) (outcome : AwaitOutcome)
deriving DecidableEq, Repr

/-- A full run of the polling request_human_approval: final global state,
broadcast_q messages put by the tool itself, result, and seconds spent in
the wait loop. -/
structure ToolRun where
  state : HostState
  broadcasts : List BMessage
  result : ToolRes
  elapsed : Nat
deriving DecidableEq, Repr

/-- The approval_request payload dict as built by request_human_approval of
session_6_mcp_host.py. -/
def mkApprovalReq (ticker action reason market_data : String) (now : Nat)
    (fresh : String) : ApprovalReq :=
  { request_id := mkRequestId ticker action now fresh, ticker := ticker,
    action := action, reason := reason, market_data := market_data,
    timestamp := now, status := "pending", created_at := now }

/-- request_human_approval of session_6_mcp_host.py: validate the action,
register the request, broadcast approval_request, poll every 2 seconds for
up to 5 minutes while the environment (sched) delivers approval responses,
then synthesize the timeout result or consume the completed one. -/
def request_human_approval (st : HostState)
    (ticker action reason market_data : String)
    (sched : Nat → List (String × Bool)) (now : Nat) (fresh : String) : ToolRun :=
  if action != "BUY" && action != "SELL" then
    { state := st, broadcasts := [], result := ToolRes.immediate (invalidActionJsonB now),
      elapsed := 0 }
  else
    let rid := mkRequestId ticker action now fresh
    let req := mkApprovalReq ticker action reason market_data now fresh
    let st1 : HostState :=
      { st with pending_approvals := dictInsert st.pending_approvals rid req }
    let lp := pollLoop rid sched 150 0 st1
    let fin := await_finish rid lp.1 (now + 2 * lp.2)
    { state := fin.1,
      broadcasts := [BMessage.approvalRequest req],
      result := ToolRes.awaited rid fin.2,
      elapsed := 2 * lp.2 }

end PollingHost

/-- Result of one broadcast_to_all_connections call (trading_api.py lines
130-157, and the identical function of session_6_mcp_host.py).  Each
registered connection is a pair of its id and whether sending to it raises.
delivered lists the successful sends in iteration order; errors lists the
ids whose send raised (the exception is caught per connection, so nothing
propagates to the caller). -/
structure BroadcastResult (α : Type) where
  connections : List (String × Bool)
  delivered : List (String × α)
  errors : List String
deriving DecidableEq, Repr

/-- broadcast_to_all_connections: serialize the message once, try to send
it to every active connection, collecting failing connection ids, then pop
every failing id from the connection table. -/
def broadcast_to_all_connections {α : Type} (conns : List (String × Bool))
    (message : α) : BroadcastResult α :=
  if conns.isEmpty then
    { connections := conns, delivered := [], errors := [] }
  else
    let sends := conns.foldl
      (fun (acc : List (String × α) × List String) c =>
        if c.2 then (acc.1, acc.2 ++ [c.1]) else (acc.1 ++ [(c.1, message)], acc.2))
      ([], [])
    { connections := conns.filter (fun c => !(sends.2.contains c.1)),
      delivered := sends.1,
      errors := sends.2 }

/-- Invariant tying one awaited request id to the two tables of the polling
host: while unresolved it sits in pending_approvals and not in
completed_approvals; once resolved it sits (with a non-empty result dict)
in completed_approvals and not in pending_approvals. -/
def PollingHost.InvB (rid : String) (st : PollingHost.HostState) : Prop :=
  (containsKey st.pending_approvals rid = true
    ∧ lookup? st.completed_approvals rid = none)
  ∨ (containsKey st.pending_approvals rid = false
    ∧ ∃ r, lookup? st.completed_approvals rid = some r ∧ r ≠ [])

/-- Example request id of the interrupt host scenario. -/
def exRid : String := mkRequestId "NVDA" "BUY" 100 "ab12cd34"

/-- Interrupt-host state after the HITL tool registered the example request
for thread t1 and suspended. -/
def exState1 : InterruptHost.BrokerState :=
  (InterruptHost.request_human_approval_submit InterruptHost.initialBroker
    "NVDA" "BUY" "strong momentum" "" (some "t1") 100 "ab12cd34").1

/-- Interrupt-host state after the resumed tool consumed the approval and
cleaned its pending entries: thread t1's session is completed. -/
def exState2 : InterruptHost.BrokerState :=
  (InterruptHost.request_human_approval_finish exState1 exRid
    (InterruptHost.ResumeValue.dict true exRid) 160).1

/-- Example request id of the polling-host fixtures. -/
def exRidB : String := mkRequestId "AAPL" "SELL" 200 "ffffeeee"

/-- Polling-host state in which the example request was already resolved
(its result consumed into completed_approvals) and is no longer pending. -/
def exStateB : PollingHost.HostState :=
  { pending_approvals := [],
    completed_approvals := [(exRidB, [("approved", JValue.bool true)])] }

/-- A schedule on which no approval response ever arrives. -/
def exNoResponses : Nat → List (String × Bool) := fun _ => []

/-- Example request id of the polling-host run fixtures. -/
def exRidT : String := mkRequestId "NVDA" "BUY" 400 "deadbeef"

/-- A schedule that approves the example request during the first sleep. -/
def exApproveAt0 : Nat → List (String × Bool) := fun i =>
  if i = 0 then [(exRidT, true)] else []

/-- A full polling-host run of the example request on which no response
ever arrives. -/
def exRunTimeout : PollingHost.ToolRun :=
  PollingHost.request_human_approval { pending_approvals := [], completed_approvals := [] }
    "NVDA" "BUY" "strong momentum" "" exNoResponses 400 "deadbeef"

theorem containsKey_eq_false_iff {α : Type} (l : List (String × α)) (k : String) :
    containsKey l k = false ↔ ∀ p ∈ l, p.1 ≠ k := by
  induction l with
  | nil => simp [containsKey]
  | cons hd tl ih => simp [containsKey, ih]

theorem containsKey_eq_isSome_lookup {α : Type} (l : List (String × α)) (k : String) :
    containsKey l k = (lookup? l k).isSome := by
  induction l with
  | nil => simp [containsKey, lookup?]
  | cons hd tl ih =>
    by_cases h : hd.1 = k
    · simp [containsKey, lookup?, h]
    · simp [containsKey, lookup?, h, ih]

theorem dictInsert_of_contains_false {α : Type} (l : List (String × α)) (k : String) (v : α)
    (h : containsKey l k = false) : dictInsert l k v = l ++ [(k, v)] := by
  induction l with
  | nil => simp [dictInsert]
  | cons hd tl ih =>
    simp only [containsKey, Bool.or_eq_false_iff] at h
    simp [dictInsert, beq_eq_false_iff_ne.mp h.1, ih h.2]

theorem lookup?_dictInsert_self {α : Type} (l : List (String × α)) (k : String) (v : α) :
    lookup? (dictInsert l k v) k = some v := by
  induction l with
  | nil => simp [dictInsert, lookup?]
  | cons hd tl ih =>
    by_cases h : hd.1 = k
    · simp [dictInsert, lookup?, h]
    · simp [dictInsert, lookup?, h, ih]

theorem lookup?_dictInsert_ne {α : Type} (l : List (String × α)) (k k' : String) (v : α)
    (h : k' ≠ k) : lookup? (dictInsert l k v) k' = lookup? l k' := by
  have hks : ¬k = k' := fun he => h he.symm
  induction l with
  | nil => simp [dictInsert, lookup?, hks]
  | cons hd tl ih =>
    by_cases hh : hd.1 = k
    · have hne : ¬hd.1 = k' := by rw [hh]; exact hks
      simp [dictInsert, lookup?, hh, hne, hks]
    · by_cases hh' : hd.1 = k'
      · simp [dictInsert, lookup?, hh, hh', h, hks]
      · simp [dictInsert, lookup?, hh, hh', h, hks, ih]

theorem containsKey_dictInsert_self {α : Type} (l : List (String × α)) (k : String) (v : α) :
    containsKey (dictInsert l k v) k = true := by
  rw [containsKey_eq_isSome_lookup, lookup?_dictInsert_self]
  rfl

theorem containsKey_dictInsert_ne {α : Type} (l : List (String × α)) (k k' : String) (v : α)
    (h : k' ≠ k) : containsKey (dictInsert l k v) k' = containsKey l k' := by
  rw [containsKey_eq_isSome_lookup, containsKey_eq_isSome_lookup,
      lookup?_dictInsert_ne _ _ _ _ h]

theorem lookup?_eraseKey_self {α : Type} (l : List (String × α)) (k : String) :
    lookup? (eraseKey l k) k = none := by
  induction l with
  | nil => simp [eraseKey, lookup?]
  | cons hd tl ih =>
    by_cases h : hd.1 = k
    · simpa [eraseKey, h] using ih
    · simpa [eraseKey, lookup?, h] using ih

theorem containsKey_eraseKey_self {α : Type} (l : List (String × α)) (k : String) :
    containsKey (eraseKey l k) k = false := by
  rw [containsKey_eq_isSome_lookup, lookup?_eraseKey_self]
  rfl

theorem lookup?_eraseKey_ne {α : Type} (l : List (String × α)) (k k' : String)
    (h : k' ≠ k) : lookup? (eraseKey l k) k' = lookup? l k' := by
  have hks : ¬k = k' := fun he => h he.symm
  induction l with
  | nil => simp [eraseKey]
  | cons hd tl ih =>
    by_cases hh : hd.1 = k
    · have hne : ¬hd.1 = k' := by rw [hh]; exact hks
      simpa [eraseKey, lookup?, hh, hne, hks] using ih
    · by_cases hh' : hd.1 = k'
      · simp [eraseKey, lookup?, hh, hh', h, hks]
      · simpa [eraseKey, lookup?, hh, hh', h, hks] using ih

theorem containsKey_eraseKey_ne {α : Type} (l : List (String × α)) (k k' : String)
    (h : k' ≠ k) : containsKey (eraseKey l k) k' = containsKey l k' := by
  rw [containsKey_eq_isSome_lookup, containsKey_eq_isSome_lookup,
      lookup?_eraseKey_ne _ _ _ h]

theorem containsKey_filter_false {α : Type} (l : List (String × α)) (k : String)
    (p : String × α → Bool) (h : containsKey l k = false) :
    containsKey (l.filter p) k = false := by
  rw [containsKey_eq_false_iff] at h ⊢
  intro q hq
  exact h q (List.mem_of_mem_filter hq)

/-- Fold preservation of a predicate, restricted to members of the list. -/
theorem foldl_preserves_mem {σ α : Type} (P : σ → Prop) (f : σ → α → σ) :
    ∀ (l : List α), (∀ s a, a ∈ l → P s → P (f s a)) → ∀ s, P s → P (l.foldl f s) := by
  intro l
  induction l with
  | nil => intro _ s hs; simpa using hs
  | cons hd tl ih =>
    intro h s hs
    simp only [List.foldl_cons]
    exact ih (fun s' a ha hP => h s' a (List.mem_cons_of_mem _ ha) hP)
      (f s hd) (h s hd (List.mem_cons_self _ _) hs)


/-- Claim C9: every _create_approval_response result contains the keys
approved, message and timestamp; it contains approval_token exactly when
approved is true and request_id is non-empty; and it contains error exactly
when a non-empty error argument was passed. -/
theorem C9_create_approval_response_keys (approved : Bool)
    (message request_id error : String) (now : Nat) :
    "approved" ∈ keysOf (InterruptHost.create_approval_response approved message request_id error now)
    ∧ "message" ∈ keysOf (InterruptHost.create_approval_response approved message request_id error now)
    ∧ "timestamp" ∈ keysOf (InterruptHost.create_approval_response approved message request_id error now)
    ∧ ("approval_token" ∈ keysOf (InterruptHost.create_approval_response approved message request_id error now)
        ↔ (approved = true ∧ request_id ≠ ""))
    ∧ ("error" ∈ keysOf (InterruptHost.create_approval_response approved message request_id error now)
        ↔ error ≠ "") := by
  by_cases ha : approved = true ∧ request_id ≠ "" <;>
    by_cases he : error ≠ "" <;>
      simp [InterruptHost.create_approval_response, keysOf, ha, he]

/-- Claim C7: a call of request_human_approval with an action outside
BUY/SELL returns an approved = false response immediately in both hosts:
the state is unchanged (no pending request is created), no approval_request
event is broadcast, and the run is not suspended (immediate result,
elapsed 0 in the polling host). -/
theorem C7_no_action_never_gated (stA : InterruptHost.BrokerState)
    (stB : PollingHost.HostState) (ticker action reason market_data : String)
    (ctx : Option String) (sched : Nat → List (String × Bool))
    (now nowB : Nat) (fresh freshB : String)
    (h1 : action ≠ "BUY") (h2 : action ≠ "SELL") :
    InterruptHost.request_human_approval_submit stA ticker action reason market_data ctx now fresh
      = (stA, InterruptHost.SubmitResult.immediate
          (InterruptHost.create_approval_response false
            "승인은 BUY/SELL 액션에만 필요합니다 (HOLD는 승인 불요)" "" "Invalid action" now))
    ∧ ("approved", JValue.bool false)
        ∈ InterruptHost.create_approval_response false
            "승인은 BUY/SELL 액션에만 필요합니다 (HOLD는 승인 불요)" "" "Invalid action" now
    ∧ PollingHost.request_human_approval stB ticker action reason market_data sched nowB freshB
      = { state := stB, broadcasts := [],
          result := PollingHost.ToolRes.immediate (PollingHost.invalidActionJsonB nowB),
          elapsed := 0 }
    ∧ ("approved", JValue.bool false) ∈ PollingHost.invalidActionJsonB nowB := by
  refine ⟨?_, ?_, ?_, ?_⟩
  · simp [InterruptHost.request_human_approval_submit, h1, h2]
  · simp [InterruptHost.create_approval_response]
  · simp [PollingHost.request_human_approval, h1, h2]
  · simp [PollingHost.invalidActionJsonB]

/-- Witness for C7 at the action HOLD on the empty states. -/
theorem C7_witness :
    InterruptHost.request_human_approval_submit InterruptHost.initialBroker
        "NVDA" "HOLD" "flat market" "" (some "t9") 55 "0a0a0a0a"
      = (InterruptHost.initialBroker, InterruptHost.SubmitResult.immediate
          (InterruptHost.create_approval_response false
            "승인은 BUY/SELL 액션에만 필요합니다 (HOLD는 승인 불요)" "" "Invalid action" 55))
    ∧ ("approved", JValue.bool false)
        ∈ InterruptHost.create_approval_response false
            "승인은 BUY/SELL 액션에만 필요합니다 (HOLD는 승인 불요)" "" "Invalid action" 55
    ∧ PollingHost.request_human_approval
          { pending_approvals := [], completed_approvals := [] }
          "NVDA" "HOLD" "flat market" "" exNoResponses 55 "0a0a0a0a"
      = { state := { pending_approvals := [], completed_approvals := [] },
          broadcasts := [],
          result := PollingHost.ToolRes.immediate (PollingHost.invalidActionJsonB 55),
          elapsed := 0 }
    ∧ ("approved", JValue.bool false) ∈ PollingHost.invalidActionJsonB 55 :=
  C7_no_action_never_gated InterruptHost.initialBroker
    { pending_approvals := [], completed_approvals := [] }
    "NVDA" "HOLD" "flat market" "" (some "t9") exNoResponses 55 55 "0a0a0a0a" "0a0a0a0a"
    (by decide) (by decide)

theorem broadcast_foldl_spec {α : Type} (message : α) :
    ∀ (conns : List (String × Bool)) (d : List (String × α)) (e : List String),
      conns.foldl
        (fun (acc : List (String × α) × List String) c =>
          if c.2 then (acc.1, acc.2 ++ [c.1]) else (acc.1 ++ [(c.1, message)], acc.2))
        (d, e)
      = (d ++ (conns.filter (fun c => !c.2)).map (fun c => (c.1, message)),
         e ++ (conns.filter (fun c => c.2)).map (fun c => c.1)) := by
  intro conns
  induction conns with
  | nil => intro d e; simp
  | cons hd tl ih =>
    intro d e
    by_cases h : hd.2 = true
    · simp [h, ih]
    · simp only [Bool.not_eq_true] at h
      simp [h, ih]

theorem mem_broadcast_errors_iff (conns : List (String × Bool))
    (hids : (conns.map (fun c => c.1)).Nodup) (c : String × Bool) (hc : c ∈ conns) :
    (((conns.filter (fun c => c.2)).map (fun c => c.1)).contains c.1) = c.2 := by
  by_cases h : c.2 = true
  · rw [h]
    rw [List.contains_eq_any_beq]
    rw [List.any_eq_true]
    refine ⟨c.1, ?_, by simp⟩
    exact List.mem_map.mpr ⟨c, List.mem_filter.mpr ⟨hc, by simp [h]⟩, rfl⟩
  · simp only [Bool.not_eq_true] at h
    rw [h]
    rw [List.contains_eq_any_beq]
    rw [List.any_eq_false]
    intro x hx
    simp only [beq_iff_eq]
    intro hxc
    rw [← hxc] at hx
    rcases List.mem_map.mp hx with ⟨d, hd, hdc⟩
    have hdconns : d ∈ conns := List.mem_of_mem_filter hd
    have hdtrue : d.2 = true := by
      have := (List.mem_filter.mp hd).2
      simpa using this
    have hde : d = c := List.inj_on_of_nodup_map hids hdconns hc hdc
    rw [hde, h] at hdtrue
    exact Bool.false_ne_true hdtrue

/-- Claim C8: fan-out failure isolation of broadcast_to_all_connections:
on a connection table with distinct ids (Python dict keys), a failing
connection never prevents delivery to the others — the message is delivered
to exactly the non-failing connections, in registration order; exactly the
failing connections are removed from the table afterwards; and all other
entries are kept unchanged (the result is the original table filtered to
its non-failing entries).  Per-connection exceptions are caught inside the
source's loop, so the function is total and nothing propagates to the
publisher. -/
theorem C8_fanout_failure_isolation {α : Type} (conns : List (String × Bool))
    (message : α) (hids : (conns.map (fun c => c.1)).Nodup) :
    (broadcast_to_all_connections conns message).connections
        = conns.filter (fun c => !c.2)
    ∧ (broadcast_to_all_connections conns message).delivered
        = (conns.filter (fun c => !c.2)).map (fun c => (c.1, message))
    ∧ (broadcast_to_all_connections conns message).errors
        = (conns.filter (fun c => c.2)).map (fun c => c.1) := by
  by_cases hempty : conns.isEmpty
  · rw [List.isEmpty_iff] at hempty
    subst hempty
    simp [broadcast_to_all_connections]
  · have hfold := broadcast_foldl_spec message conns [] []
    refine ⟨?_, ?_, ?_⟩
    · show (if conns.isEmpty then _ else _ : BroadcastResult α).connections = _
      rw [if_neg hempty]
      simp only [hfold, List.nil_append]
      exact List.filter_congr fun c hc => by
        rw [mem_broadcast_errors_iff conns hids c hc]
    · show (if conns.isEmpty then _ else _ : BroadcastResult α).delivered = _
      rw [if_neg hempty]
      simp [hfold]
    · show (if conns.isEmpty then _ else _ : BroadcastResult α).errors = _
      rw [if_neg hempty]
      simp [hfold]

/-- Witness for C8: three connections of which the middle one fails; the
two healthy ones still receive the message and stay registered, the failing
one is removed. -/
theorem C8_witness :
    (broadcast_to_all_connections [("c1", false), ("c2", true), ("c3", false)]
        "hello").connections
      = [("c1", false), ("c2", true), ("c3", false)].filter (fun c => !c.2)
    ∧ (broadcast_to_all_connections [("c1", false), ("c2", true), ("c3", false)]
        "hello").delivered
      = ([("c1", false), ("c2", true), ("c3", false)].filter (fun c => !c.2)).map
          (fun c => (c.1, "hello"))
    ∧ (broadcast_to_all_connections [("c1", false), ("c2", true), ("c3", false)]
        "hello").errors
      = ([("c1", false), ("c2", true), ("c3", false)].filter (fun c => c.2)).map
          (fun c => c.1) :=
  C8_fanout_failure_isolation [("c1", false), ("c2", true), ("c3", false)]
    "hello" (by decide)

theorem nodup_map_filter {α β : Type} (f : α → β) (p : α → Bool) (l : List α)
    (hn : (l.map f).Nodup) : ((l.filter p).map f).Nodup :=
  hn.sublist ((List.filter_sublist l).map f)

theorem nodup_threads_emit (st : InterruptHost.BrokerState)
    (req : InterruptHost.ApprovalRequest)
    (hn : (st.pending_approvals.map (fun p => p.2)).Nodup)
    (hf : containsKey st.pending_approvals req.request_id = false) :
    ((InterruptHost.emit_approval_request st req).pending_approvals.map
      (fun p => p.2)).Nodup := by
  have hc : containsKey
      (st.pending_approvals.filter (fun p => p.2 != req.thread_id)) req.request_id = false :=
    containsKey_filter_false _ _ _ hf
  show ((dictInsert (st.pending_approvals.filter (fun p => p.2 != req.thread_id))
      req.request_id req.thread_id).map (fun p => p.2)).Nodup
  rw [dictInsert_of_contains_false _ _ _ hc, List.map_append]
  rw [List.nodup_append]
  refine ⟨nodup_map_filter _ _ _ hn, by simp, ?_⟩
  intro x hx
  rcases List.mem_map.mp hx with ⟨q, hq, hqx⟩
  have : (q.2 != req.thread_id) = true := (List.mem_filter.mp hq).2
  simp only [List.map_cons, List.map_nil, List.mem_singleton]
  intro hxt
  rw [hxt] at hqx
  rw [← hqx] at this
  simp at this

theorem nodup_threads_step (st : InterruptHost.BrokerState) (op : InterruptHost.OpA)
    (hn : (st.pending_approvals.map (fun p => p.2)).Nodup)
    (hf : InterruptHost.freshOk st op = true) :
    ((InterruptHost.stepA st op).pending_approvals.map (fun p => p.2)).Nodup := by
  cases op with
  | submit ticker action reason market_data ctx now fresh =>
    have hfp : containsKey st.pending_approvals (mkRequestId ticker action now fresh) = false := by
      simp only [InterruptHost.freshOk, Bool.and_eq_true, Bool.not_eq_true'] at hf
      exact hf.1
    simp only [InterruptHost.stepA, InterruptHost.request_human_approval_submit]
    split
    · exact hn
    · cases ctx with
      | none => exact hn
      | some thread_id =>
        simp only
        rcases hg : InterruptHost.get_pending_request_for_thread st thread_id with ⟨oid, oreq⟩
        cases oid with
        | some existing_id =>
          cases oreq with
          | some existing_req =>
            simp only
            split
            · exact hn
            · exact nodup_threads_emit st _ hn hfp
          | none => exact nodup_threads_emit st _ hn hfp
        | none =>
          cases oreq with
          | some existing_req => exact nodup_threads_emit st _ hn hfp
          | none => exact nodup_threads_emit st _ hn hfp
  | resolve request_id approved =>
    cases hl : lookup? st.pending_approvals request_id with
    | none => simpa [InterruptHost.stepA, InterruptHost.handle_approval_response, hl] using hn
    | some tid => simpa [InterruptHost.stepA, InterruptHost.handle_approval_response, hl] using hn
  | toolFinish request_id response now =>
    have hbase : ((eraseKey st.pending_approvals request_id).map (fun p => p.2)).Nodup :=
      nodup_map_filter _ _ _ hn
    cases response with
    | dict approved rid2 =>
      cases approved <;>
        simpa [InterruptHost.stepA, InterruptHost.request_human_approval_finish] using hbase
    | nonDict =>
      simpa [InterruptHost.stepA, InterruptHost.request_human_approval_finish] using hbase
  | toolError ctx =>
    cases ctx with
    | none => simpa [InterruptHost.stepA, InterruptHost.cleanup_thread] using hn
    | some thread_id =>
      simpa [InterruptHost.stepA, InterruptHost.cleanup_thread] using
        nodup_map_filter (fun p : String × String => p.2)
          (fun p => p.2 != thread_id) st.pending_approvals hn

/-- Claim C3: in every broker state reachable by host operations (with
fresh uuid-derived request ids), the pending_approvals map holds at most
one entry per thread: the listed thread ids are pairwise distinct, because
_emit_approval_request removes every older entry of the same thread before
registering a new one. -/
theorem C3_at_most_one_pending_per_thread (st : InterruptHost.BrokerState)
    (h : InterruptHost.ReachableA st) :
    (st.pending_approvals.map (fun p => p.2)).Nodup := by
  induction h with
  | init => simp [InterruptHost.initialBroker]
  | step st' op h' hf ih => exact nodup_threads_step st' op ih hf

/-- Witness for C3 at the state reached by one submit from the initial
state. -/
theorem C3_witness :
    (((InterruptHost.stepA InterruptHost.initialBroker
        (InterruptHost.OpA.submit "NVDA" "BUY" "strong momentum" ""
          (some "t1") 100 "ab12cd34")).pending_approvals).map
      (fun p => p.2)).Nodup :=
  C3_at_most_one_pending_per_thread _
    (InterruptHost.ReachableA.step InterruptHost.initialBroker
      (InterruptHost.OpA.submit "NVDA" "BUY" "strong momentum" ""
        (some "t1") 100 "ab12cd34")
      InterruptHost.ReachableA.init (by decide))

/-- Claim C1 (amended): for a session that is no longer awaiting approval —
its request_id is absent from pending_approvals, e.g. because the resumed
tool already completed and cleaned it up, or because this is a duplicate
delivery after completion — handle_approval_response is a silent no-op: the
broker state is unchanged, nothing is broadcast, no
resume_agent_execution task is scheduled (hence no further execute or
finalize stage runs), and the handler returns None rather than the
session's terminal outcome. -/
theorem C1_resume_noop_when_not_awaiting (st : InterruptHost.BrokerState)
    (request_id : String) (approved : Bool)
    (h : lookup? st.pending_approvals request_id = none) :
    InterruptHost.handle_approval_response st request_id approved
      = { state := st, broadcasts := [], resume := none, returned := none } := by
  simp [InterruptHost.handle_approval_response, h]

/-- Witness for C1 on the completed example session (duplicate rejection
delivery after completion). -/
theorem C1_witness :
    InterruptHost.handle_approval_response exState2 exRid false
      = { state := exState2, broadcasts := [], resume := none, returned := none } :=
  C1_resume_noop_when_not_awaiting exState2 exRid false (by decide)

/-- Counterexample to C1 as stated: after the example session completed,
re-delivering the same approval gives a handler run that returns None — it
does not return the session's terminal outcome (the completed Outcome that
resume_agent_execution had returned), so the claim's "returns the session's
current terminal outcome" is false, while the no-op part (no resume task)
holds. -/
theorem C1_counterexample :
    (InterruptHost.handle_approval_response exState2 exRid true).returned = none
    ∧ (InterruptHost.handle_approval_response exState2 exRid true).returned
        ≠ some (InterruptHost.resume_completed_outcome "t1")
    ∧ (InterruptHost.handle_approval_response exState2 exRid true).resume = none := by
  refine ⟨by decide, by decide, by decide⟩

/-- Claim C4 (amended): for a request_id that is not pending (already
resolved, expired, or never created), handle_approval_response of the
polling host is a silent no-op: it mutates neither approvals table,
broadcasts nothing, triggers no resumption of the waiting tool (the state
it polls is untouched), and — the function having no return statement with
a value — returns None rather than a boolean success flag. -/
theorem C4_resolve_unknown_silent_noop (st : PollingHost.HostState)
    (req_id : String) (approved : Bool) (now : Nat)
    (h : lookup? st.pending_approvals req_id = none) :
    PollingHost.handle_approval_response st req_id approved now
      = { state := st, broadcasts := [], returned := none } := by
  simp [PollingHost.handle_approval_response, h]

/-- Witness for C4 on the already-resolved example request. -/
theorem C4_witness :
    PollingHost.handle_approval_response exStateB exRidB false 201
      = { state := exStateB, broadcasts := [], returned := none } :=
  C4_resolve_unknown_silent_noop exStateB exRidB false 201 (by decide)

/-- Counterexample to C4 as stated: for the already-resolved example
request the handler run reports no boolean success flag to its caller — its
return value is None, neither some true nor some false — so the claim's
"no-op reported as such to the caller via a boolean success flag" is false,
while the no-op itself (state untouched, nothing broadcast) holds. -/
theorem C4_counterexample :
    (PollingHost.handle_approval_response exStateB exRidB true 202).returned = none
    ∧ (PollingHost.handle_approval_response exStateB exRidB true 202).returned ≠ some true
    ∧ (PollingHost.handle_approval_response exStateB exRidB true 202).returned ≠ some false
    ∧ (PollingHost.handle_approval_response exStateB exRidB true 202).state = exStateB := by
  refine ⟨by decide, by decide, by decide, by decide⟩

theorem mkRequestId_ne_empty (ticker action : String) (now : Nat) (fresh : String) :
    mkRequestId ticker action now fresh ≠ "" := by
  intro h
  have h2 : (mkRequestId ticker action now fresh).length = 0 := by rw [h]; rfl
  simp [mkRequestId, String.length_append] at h2
  exact absurd h2.1.1.1.1.1.1.1 (by decide)

theorem find?_append_all_false {α : Type} (p : α → Bool) (l₁ l₂ : List α)
    (h : ∀ x ∈ l₁, ¬p x) : List.find? p (l₁ ++ l₂) = List.find? p l₂ := by
  induction l₁ with
  | nil => simp
  | cons hd tl ih =>
    have hhd : p hd = false := by
      have := h hd (List.mem_cons_self _ _)
      simpa using this
    simp only [List.cons_append, List.find?_cons, hhd]
    exact ih fun x hx => h x (List.mem_cons_of_mem _ hx)

/-- Claim C2: idempotent submission.  From a state with no pending request
for the thread, a first execution of the HITL tool body registers a request
and suspends; a re-execution of the tool body for the same thread before
resolution (as happens when the graph resumes and replays the tool, or on a
retried step) finds the pending entry, returns the very same request with
the same request_id, and changes nothing: the whole broker state — in
particular ui_message_queue — is exactly the state after the first
submission, so no second approval_request event is published.  The
freshness hypothesis states that the first call's uuid-derived request id is
not already a key of the pending table. -/
theorem C2_submission_idempotent (st0 : InterruptHost.BrokerState)
    (ticker action reason market_data ticker' action' reason' market_data' tid : String)
    (now now' : Nat) (fresh fresh' : String)
    (ha : action = "BUY" ∨ action = "SELL")
    (ha' : action' = "BUY" ∨ action' = "SELL")
    (hno : st0.pending_approvals.find? (fun p => p.2 == tid) = none)
    (hf1 : containsKey st0.pending_approvals (mkRequestId ticker action now fresh) = false) :
    InterruptHost.request_human_approval_submit
        (InterruptHost.request_human_approval_submit st0 ticker action reason
          market_data (some tid) now fresh).1
        ticker' action' reason' market_data' (some tid) now' fresh'
      = InterruptHost.request_human_approval_submit st0 ticker action reason
          market_data (some tid) now fresh
    ∧ ∃ payload,
        (InterruptHost.request_human_approval_submit st0 ticker action reason
          market_data (some tid) now fresh).2
        = InterruptHost.SubmitResult.suspended (mkRequestId ticker action now fresh) payload := by
  have hvalid : (action != "BUY" && action != "SELL") = false := by
    rcases ha with h | h <;> simp [h]
  have hvalid' : (action' != "BUY" && action' != "SELL") = false := by
    rcases ha' with h | h <;> simp [h]
  have hget0 : InterruptHost.get_pending_request_for_thread st0 tid = (none, none) := by
    simp [InterruptHost.get_pending_request_for_thread, hno]
  have hall : ∀ p ∈ st0.pending_approvals, ¬((fun p => p.2 == tid) p = true) :=
    List.find?_eq_none.mp hno
  have hfirst : InterruptHost.request_human_approval_submit st0 ticker action reason
      market_data (some tid) now fresh
      = (InterruptHost.emit_approval_request st0
          { request_id := mkRequestId ticker action now fresh, thread_id := tid,
            ticker := ticker, action := action, reason := reason,
            market_data := market_data, timestamp := now, status := "pending",
            created_at := now },
        InterruptHost.SubmitResult.suspended (mkRequestId ticker action now fresh)
          { request_id := mkRequestId ticker action now fresh, thread_id := tid,
            ticker := ticker, action := action, reason := reason,
            market_data := market_data, timestamp := now, status := "pending",
            created_at := now }) := by
    simp [InterruptHost.request_human_approval_submit, hvalid, hget0]
  have hfil : st0.pending_approvals.filter (fun p => p.2 != tid) = st0.pending_approvals :=
    List.filter_eq_self.mpr (fun p hp => by simpa using hall p hp)
  have hremoved : st0.pending_approvals.filter (fun p => p.2 == tid) = [] := by
    rw [List.filter_eq_nil_iff]
    intro p hp
    simpa using hall p hp
  have hpend1 : (InterruptHost.emit_approval_request st0
      { request_id := mkRequestId ticker action now fresh, thread_id := tid,
        ticker := ticker, action := action, reason := reason,
        market_data := market_data, timestamp := now, status := "pending",
        created_at := now }).pending_approvals
      = st0.pending_approvals ++ [(mkRequestId ticker action now fresh, tid)] := by
    show dictInsert (st0.pending_approvals.filter (fun p => p.2 != tid))
        (mkRequestId ticker action now fresh) tid
      = st0.pending_approvals ++ [(mkRequestId ticker action now fresh, tid)]
    rw [hfil, dictInsert_of_contains_false _ _ _ hf1]
  have hpay1 : (InterruptHost.emit_approval_request st0
      { request_id := mkRequestId ticker action now fresh, thread_id := tid,
        ticker := ticker, action := action, reason := reason,
        market_data := market_data, timestamp := now, status := "pending",
        created_at := now }).pending_request_payloads
      = dictInsert st0.pending_request_payloads (mkRequestId ticker action now fresh)
          { request_id := mkRequestId ticker action now fresh, thread_id := tid,
            ticker := ticker, action := action, reason := reason,
            market_data := market_data, timestamp := now, status := "pending",
            created_at := now } := by
    show dictInsert (st0.pending_request_payloads.filter
        (fun p => !(((st0.pending_approvals.filter (fun q => q.2 == tid)).map
          (fun q => q.1)).contains p.1)))
        (mkRequestId ticker action now fresh) _
      = _
    rw [hremoved]
    simp
  have hget1 : InterruptHost.get_pending_request_for_thread
      (InterruptHost.emit_approval_request st0
        { request_id := mkRequestId ticker action now fresh, thread_id := tid,
          ticker := ticker, action := action, reason := reason,
          market_data := market_data, timestamp := now, status := "pending",
          created_at := now }) tid
      = (some (mkRequestId ticker action now fresh),
         some { request_id := mkRequestId ticker action now fresh, thread_id := tid,
                ticker := ticker, action := action, reason := reason,
                market_data := market_data, timestamp := now, status := "pending",
                created_at := now }) := by
    rw [InterruptHost.get_pending_request_for_thread, hpend1,
        find?_append_all_false _ _ _ hall]
    simp [hpay1, lookup?_dictInsert_self]
  have hrne : ((mkRequestId ticker action now fresh) != "") = true := by
    simp only [bne_iff_ne, ne_eq]
    exact mkRequestId_ne_empty ticker action now fresh
  constructor
  · rw [hfirst]
    simp only [InterruptHost.request_human_approval_submit, hvalid', Bool.false_eq_true,
      if_false, hget1, hrne, if_true]
  · exact ⟨_, by rw [hfirst]⟩

/-- Witness for C2: a concrete double submission from the empty state for
thread t1 returns the same suspended request twice without any state
change. -/
theorem C2_witness :
    InterruptHost.request_human_approval_submit
        (InterruptHost.request_human_approval_submit InterruptHost.initialBroker
          "NVDA" "BUY" "strong momentum" "" (some "t1") 100 "ab12cd34").1
        "NVDA" "BUY" "strong momentum" "" (some "t1") 107 "77553311"
      = InterruptHost.request_human_approval_submit InterruptHost.initialBroker
          "NVDA" "BUY" "strong momentum" "" (some "t1") 100 "ab12cd34"
    ∧ ∃ payload,
        (InterruptHost.request_human_approval_submit InterruptHost.initialBroker
          "NVDA" "BUY" "strong momentum" "" (some "t1") 100 "ab12cd34").2
        = InterruptHost.SubmitResult.suspended (mkRequestId "NVDA" "BUY" 100 "ab12cd34")
            payload :=
  C2_submission_idempotent InterruptHost.initialBroker
    "NVDA" "BUY" "strong momentum" "" "NVDA" "BUY" "strong momentum" "" "t1"
    100 107 "ab12cd34" "77553311"
    (Or.inl rfl) (Or.inl rfl) (by decide) (by decide)

theorem handleB_preserves_inv (rid rid' : String) (b : Bool) (now : Nat)
    (st : PollingHost.HostState) (h : PollingHost.InvB rid st) :
    PollingHost.InvB rid (PollingHost.handle_approval_response st rid' b now).state := by
  cases hl : lookup? st.pending_approvals rid' with
  | none => simpa [PollingHost.handle_approval_response, hl] using h
  | some req =>
    by_cases hrr : rid' = rid
    · subst hrr
      rcases h with ⟨hp, hc⟩ | ⟨hp, r, hcr, hrne⟩
      · right
        refine ⟨?_, ?_⟩
        · simp [PollingHost.handle_approval_response, hl, containsKey_eraseKey_self]
        · cases b with
          | false =>
            refine ⟨[("approved", JValue.bool false),
                     ("message", JValue.str "거래가 거부되었습니다"),
                     ("timestamp", JValue.num now)], ?_, ?_⟩
            · simp [PollingHost.handle_approval_response, hl, lookup?_dictInsert_self]
            · simp
          | true =>
            refine ⟨[("approved", JValue.bool true),
                     ("message", JValue.str "승인 완료"),
                     ("approval_token",
                       JValue.str ("token_" ++ rid' ++ "_" ++ toString now)),
                     ("timestamp", JValue.num now)], ?_, ?_⟩
            · simp [PollingHost.handle_approval_response, hl, lookup?_dictInsert_self]
            · simp
      · rw [containsKey_eq_isSome_lookup, hl] at hp
        simp at hp
    · rcases h with ⟨hp, hc⟩ | ⟨hp, r, hcr, hrne⟩
      · left
        constructor
        · simpa [PollingHost.handle_approval_response, hl,
            containsKey_eraseKey_ne _ _ _ (fun he => hrr he.symm)] using hp
        · simpa [PollingHost.handle_approval_response, hl,
            lookup?_dictInsert_ne _ _ _ _ (fun he => hrr he.symm)] using hc
      · right
        constructor
        · simpa [PollingHost.handle_approval_response, hl,
            containsKey_eraseKey_ne _ _ _ (fun he => hrr he.symm)] using hp
        · refine ⟨r, ?_, hrne⟩
          simpa [PollingHost.handle_approval_response, hl,
            lookup?_dictInsert_ne _ _ _ _ (fun he => hrr he.symm)] using hcr

theorem drainTick_preserves_inv (rid : String) (sched : Nat → List (String × Bool))
    (i : Nat) (st : PollingHost.HostState) (h : PollingHost.InvB rid st) :
    PollingHost.InvB rid (PollingHost.drainTick sched i st) := by
  rw [PollingHost.drainTick]
  exact foldl_preserves_mem (PollingHost.InvB rid)
    (fun (s : PollingHost.HostState) (p : String × Bool) =>
      (PollingHost.handle_approval_response s p.1 p.2 i).state)
    (sched i) (fun s p _ hP => handleB_preserves_inv rid p.1 p.2 i s hP) st h

theorem pollLoop_preserves_inv (rid : String) (sched : Nat → List (String × Bool)) :
    ∀ (fuel i : Nat) (st : PollingHost.HostState), PollingHost.InvB rid st →
      PollingHost.InvB rid (PollingHost.pollLoop rid sched fuel i st).1 := by
  intro fuel
  induction fuel with
  | zero => intro i st h; simpa [PollingHost.pollLoop] using h
  | succ k ih =>
    intro i st h
    by_cases hc : containsKey st.pending_approvals rid
    · simpa [PollingHost.pollLoop, hc] using
        ih (i + 1) (PollingHost.drainTick sched i st)
          (drainTick_preserves_inv rid sched i st h)
    · simpa [PollingHost.pollLoop, hc] using h

theorem handleB_other_preserves_pending (rid rid' : String) (b : Bool) (now : Nat)
    (st : PollingHost.HostState) (hne : rid' ≠ rid) :
    containsKey
        (PollingHost.handle_approval_response st rid' b now).state.pending_approvals rid
      = containsKey st.pending_approvals rid := by
  cases hl : lookup? st.pending_approvals rid' with
  | none => simp [PollingHost.handle_approval_response, hl]
  | some req =>
    simp [PollingHost.handle_approval_response, hl,
      containsKey_eraseKey_ne _ _ _ (fun he => hne he.symm)]

theorem drainTick_miss_preserves_pending (rid : String)
    (sched : Nat → List (String × Bool)) (i : Nat)
    (hs : ∀ j p, p ∈ sched j → p.1 ≠ rid) (st : PollingHost.HostState)
    (h : containsKey st.pending_approvals rid = true) :
    containsKey (PollingHost.drainTick sched i st).pending_approvals rid = true := by
  rw [PollingHost.drainTick]
  exact foldl_preserves_mem (fun s => containsKey s.pending_approvals rid = true)
    (fun (s : PollingHost.HostState) (p : String × Bool) =>
      (PollingHost.handle_approval_response s p.1 p.2 i).state)
    (sched i)
    (fun s p hp hP => by
      show containsKey
        (PollingHost.handle_approval_response s p.1 p.2 i).state.pending_approvals rid = true
      rw [handleB_other_preserves_pending rid p.1 p.2 i s (hs i p hp)]
      exact hP)
    st h

theorem pollLoop_timeout (rid : String) (sched : Nat → List (String × Bool))
    (hs : ∀ j p, p ∈ sched j → p.1 ≠ rid) :
    ∀ (fuel i : Nat) (st : PollingHost.HostState),
      containsKey st.pending_approvals rid = true →
      containsKey (PollingHost.pollLoop rid sched fuel i st).1.pending_approvals rid = true
      ∧ (PollingHost.pollLoop rid sched fuel i st).2 = i + fuel := by
  intro fuel
  induction fuel with
  | zero => intro i st h; simpa [PollingHost.pollLoop] using h
  | succ k ih =>
    intro i st h
    have hstep := ih (i + 1) (PollingHost.drainTick sched i st)
      (drainTick_miss_preserves_pending rid sched i hs st h)
    constructor
    · simpa [PollingHost.pollLoop, h] using hstep.1
    · rw [PollingHost.pollLoop]
      rw [if_pos h]
      rw [hstep.2]
      omega

theorem await_finish_of_inv (rid : String) (st : PollingHost.HostState) (fin : Nat)
    (h : PollingHost.InvB rid st) :
    containsKey (PollingHost.await_finish rid st fin).1.pending_approvals rid = false
    ∧ containsKey (PollingHost.await_finish rid st fin).1.completed_approvals rid = false
    ∧ ((PollingHost.await_finish rid st fin).2
        = PollingHost.AwaitOutcome.timedOut (PollingHost.timeoutJson fin)
      ∨ ∃ r, (PollingHost.await_finish rid st fin).2 = PollingHost.AwaitOutcome.resolved r) := by
  rcases h with ⟨hp, hc⟩ | ⟨hp, r, hcr, hrne⟩
  · refine ⟨?_, ?_, Or.inl ?_⟩
    · simp [PollingHost.await_finish, hp, containsKey_eraseKey_self]
    · simp [PollingHost.await_finish, hp, containsKey_eq_isSome_lookup, hc]
    · simp [PollingHost.await_finish, hp]
  · have hre : r.isEmpty = false := by
      cases r with
      | nil => exact absurd rfl hrne
      | cons hd tl => rfl
    refine ⟨?_, ?_, Or.inr ⟨r, ?_⟩⟩
    · simp [PollingHost.await_finish, hp, hcr, hre]
    · simp [PollingHost.await_finish, hp, hcr, hre, containsKey_eraseKey_self]
    · simp [PollingHost.await_finish, hp, hcr, hre]

/-- Claim C5 (amended): if no approval response for the request arrives
within the deadline (no schedule entry ever names its request id), the
polling request_human_approval returns, after exactly 300 seconds of
polling (150 polls of 2 seconds — the deadline, within the 2-second poll
granularity), the synthesized timeout result: approved = false with the
timeout annotation the code actually emits (a timeout: true field and a
Korean timeout error message — there is no notes field), and the request
is removed from the pending index (deleted outright; no expired marker is
retained). -/
theorem C5_timeout_synthesis (st : PollingHost.HostState)
    (ticker action reason market_data : String)
    (sched : Nat → List (String × Bool)) (now : Nat) (fresh : String)
    (ha : action = "BUY" ∨ action = "SELL")
    (hs : ∀ j p, p ∈ sched j → p.1 ≠ mkRequestId ticker action now fresh) :
    (PollingHost.request_human_approval st ticker action reason market_data
        sched now fresh).result
      = PollingHost.ToolRes.awaited (mkRequestId ticker action now fresh)
          (PollingHost.AwaitOutcome.timedOut (PollingHost.timeoutJson (now + 300)))
    ∧ (PollingHost.request_human_approval st ticker action reason market_data
        sched now fresh).elapsed = 300
    ∧ containsKey (PollingHost.request_human_approval st ticker action reason
        market_data sched now fresh).state.pending_approvals
        (mkRequestId ticker action now fresh) = false
    ∧ ("approved", JValue.bool false) ∈ PollingHost.timeoutJson (now + 300)
    ∧ ("timeout", JValue.bool true) ∈ PollingHost.timeoutJson (now + 300)
    ∧ "notes" ∉ keysOf (PollingHost.timeoutJson (now + 300)) := by
  have hvalid : (action != "BUY" && action != "SELL") = false := by
    rcases ha with h | h <;> simp [h]
  have hpend1 : containsKey
      (dictInsert st.pending_approvals (mkRequestId ticker action now fresh)
        (PollingHost.mkApprovalReq ticker action reason market_data now fresh))
      (mkRequestId ticker action now fresh) = true :=
    containsKey_dictInsert_self _ _ _
  have hloop := pollLoop_timeout (mkRequestId ticker action now fresh) sched hs 150 0
    (PollingHost.HostState.mk
      (dictInsert st.pending_approvals (mkRequestId ticker action now fresh)
        (PollingHost.mkApprovalReq ticker action reason market_data now fresh))
      st.completed_approvals)
    hpend1
  refine ⟨?_, ?_, ?_, by simp [PollingHost.timeoutJson], by simp [PollingHost.timeoutJson],
    by simp [PollingHost.timeoutJson, keysOf]⟩
  · simp only [PollingHost.request_human_approval, hvalid, Bool.false_eq_true, if_false]
    rw [PollingHost.await_finish, if_pos hloop.1, hloop.2]
  · simp only [PollingHost.request_human_approval, hvalid, Bool.false_eq_true, if_false]
    rw [hloop.2]
  · simp only [PollingHost.request_human_approval, hvalid, Bool.false_eq_true, if_false]
    rw [PollingHost.await_finish, if_pos hloop.1]
    exact containsKey_eraseKey_self _ _

/-- Counterexample to C5 as stated: a concrete run on which no response
ever arrives returns the synthesized timeout object, and that object has no
notes key at all (the code emits a timeout: true flag and an error message
instead of the claimed notes: "timeout" annotation). -/
theorem C5_counterexample :
    exRunTimeout.result
      = PollingHost.ToolRes.awaited exRidT
          (PollingHost.AwaitOutcome.timedOut (PollingHost.timeoutJson 700))
    ∧ "notes" ∉ keysOf (PollingHost.timeoutJson 700)
    ∧ ("timeout", JValue.bool true) ∈ PollingHost.timeoutJson 700 := by
  refine ⟨by decide, by decide, by decide⟩

/-- Witness for C5 on a concrete unanswered run. -/
theorem C5_witness :
    (PollingHost.request_human_approval
        { pending_approvals := [], completed_approvals := [] }
        "NVDA" "BUY" "strong momentum" "" exNoResponses 400 "deadbeef").result
      = PollingHost.ToolRes.awaited (mkRequestId "NVDA" "BUY" 400 "deadbeef")
          (PollingHost.AwaitOutcome.timedOut (PollingHost.timeoutJson (400 + 300)))
    ∧ (PollingHost.request_human_approval
        { pending_approvals := [], completed_approvals := [] }
        "NVDA" "BUY" "strong momentum" "" exNoResponses 400 "deadbeef").elapsed = 300
    ∧ containsKey (PollingHost.request_human_approval
        { pending_approvals := [], completed_approvals := [] }
        "NVDA" "BUY" "strong momentum" "" exNoResponses 400 "deadbeef").state.pending_approvals
        (mkRequestId "NVDA" "BUY" 400 "deadbeef") = false
    ∧ ("approved", JValue.bool false) ∈ PollingHost.timeoutJson (400 + 300)
    ∧ ("timeout", JValue.bool true) ∈ PollingHost.timeoutJson (400 + 300)
    ∧ "notes" ∉ keysOf (PollingHost.timeoutJson (400 + 300)) :=
  C5_timeout_synthesis { pending_approvals := [], completed_approvals := [] }
    "NVDA" "BUY" "strong momentum" "" exNoResponses 400 "deadbeef"
    (Or.inl rfl) (fun j p hp => by simp [exNoResponses] at hp)

theorem pollingRun_spec (st : PollingHost.HostState)
    (ticker action reason market_data : String)
    (sched : Nat → List (String × Bool)) (now : Nat) (fresh : String)
    (ha : action = "BUY" ∨ action = "SELL")
    (hc : lookup? st.completed_approvals (mkRequestId ticker action now fresh) = none) :
    containsKey (PollingHost.request_human_approval st ticker action reason
        market_data sched now fresh).state.pending_approvals
        (mkRequestId ticker action now fresh) = false
    ∧ containsKey (PollingHost.request_human_approval st ticker action reason
        market_data sched now fresh).state.completed_approvals
        (mkRequestId ticker action now fresh) = false
    ∧ ((∃ j, (PollingHost.request_human_approval st ticker action reason
          market_data sched now fresh).result
          = PollingHost.ToolRes.awaited (mkRequestId ticker action now fresh)
              (PollingHost.AwaitOutcome.timedOut j))
      ∨ (∃ r, (PollingHost.request_human_approval st ticker action reason
          market_data sched now fresh).result
          = PollingHost.ToolRes.awaited (mkRequestId ticker action now fresh)
              (PollingHost.AwaitOutcome.resolved r))) := by
  have hvalid : (action != "BUY" && action != "SELL") = false := by
    rcases ha with h | h <;> simp [h]
  have hinv0 : PollingHost.InvB (mkRequestId ticker action now fresh)
      (PollingHost.HostState.mk
        (dictInsert st.pending_approvals (mkRequestId ticker action now fresh)
          (PollingHost.mkApprovalReq ticker action reason market_data now fresh))
        st.completed_approvals) :=
    Or.inl ⟨containsKey_dictInsert_self _ _ _, hc⟩
  have hinv := pollLoop_preserves_inv (mkRequestId ticker action now fresh) sched 150 0
    (PollingHost.HostState.mk
      (dictInsert st.pending_approvals (mkRequestId ticker action now fresh)
        (PollingHost.mkApprovalReq ticker action reason market_data now fresh))
      st.completed_approvals)
    hinv0
  have hfin := await_finish_of_inv (mkRequestId ticker action now fresh)
    (PollingHost.pollLoop (mkRequestId ticker action now fresh) sched 150 0
      (PollingHost.HostState.mk
        (dictInsert st.pending_approvals (mkRequestId ticker action now fresh)
          (PollingHost.mkApprovalReq ticker action reason market_data now fresh))
        st.completed_approvals)).1
    (now + 2 * (PollingHost.pollLoop (mkRequestId ticker action now fresh) sched 150 0
      (PollingHost.HostState.mk
        (dictInsert st.pending_approvals (mkRequestId ticker action now fresh)
          (PollingHost.mkApprovalReq ticker action reason market_data now fresh))
        st.completed_approvals)).2)
    hinv
  refine ⟨?_, ?_, ?_⟩
  · simp only [PollingHost.request_human_approval, hvalid, Bool.false_eq_true, if_false]
    exact hfin.1
  · simp only [PollingHost.request_human_approval, hvalid, Bool.false_eq_true, if_false]
    exact hfin.2.1
  · simp only [PollingHost.request_human_approval, hvalid, Bool.false_eq_true, if_false]
    rcases hfin.2.2 with hto | ⟨r, hres⟩
    · exact Or.inl ⟨PollingHost.timeoutJson
        (now + 2 * (PollingHost.pollLoop (mkRequestId ticker action now fresh) sched 150 0
          (PollingHost.HostState.mk
            (dictInsert st.pending_approvals (mkRequestId ticker action now fresh)
              (PollingHost.mkApprovalReq ticker action reason market_data now fresh))
            st.completed_approvals)).2), by rw [hto]⟩
    · exact Or.inr ⟨r, by rw [hres]⟩

/-- Claim C6: for every request created by the polling tool (fresh request
id, valid action), exactly one of the two terminal resolutions occurs:
either the run consumes a recorded human response (resolved) or it
synthesizes the timeout — never both for the same run, and never neither
(the unknown-status error branch is unreachable, and the fuel-bounded loop
always returns). -/
theorem C6_exactly_one_resolution (st : PollingHost.HostState)
    (ticker action reason market_data : String)
    (sched : Nat → List (String × Bool)) (now : Nat) (fresh : String)
    (ha : action = "BUY" ∨ action = "SELL")
    (hc : lookup? st.completed_approvals (mkRequestId ticker action now fresh) = none) :
    Xor'
      (∃ r, (PollingHost.request_human_approval st ticker action reason
          market_data sched now fresh).result
        = PollingHost.ToolRes.awaited (mkRequestId ticker action now fresh)
            (PollingHost.AwaitOutcome.resolved r))
      (∃ j, (PollingHost.request_human_approval st ticker action reason
          market_data sched now fresh).result
        = PollingHost.ToolRes.awaited (mkRequestId ticker action now fresh)
            (PollingHost.AwaitOutcome.timedOut j)) := by
  rcases (pollingRun_spec st ticker action reason market_data sched now fresh ha hc).2.2
    with hto | hres
  · refine Or.inr ⟨hto, ?_⟩
    rintro ⟨r, hr⟩
    rcases hto with ⟨j, hj⟩
    rw [hr] at hj
    simp at hj
  · refine Or.inl ⟨hres, ?_⟩
    rintro ⟨j, hj⟩
    rcases hres with ⟨r, hr⟩
    rw [hr] at hj
    simp at hj

/-- Witness for C6 on a run whose request is approved during the first
sleep: the resolved branch of the exclusive disjunction holds. -/
theorem C6_witness :
    Xor'
      (∃ r, (PollingHost.request_human_approval
          { pending_approvals := [], completed_approvals := [] }
          "NVDA" "BUY" "strong momentum" "" exApproveAt0 400 "deadbeef").result
        = PollingHost.ToolRes.awaited (mkRequestId "NVDA" "BUY" 400 "deadbeef")
            (PollingHost.AwaitOutcome.resolved r))
      (∃ j, (PollingHost.request_human_approval
          { pending_approvals := [], completed_approvals := [] }
          "NVDA" "BUY" "strong momentum" "" exApproveAt0 400 "deadbeef").result
        = PollingHost.ToolRes.awaited (mkRequestId "NVDA" "BUY" 400 "deadbeef")
            (PollingHost.AwaitOutcome.timedOut j)) :=
  C6_exactly_one_resolution { pending_approvals := [], completed_approvals := [] }
    "NVDA" "BUY" "strong momentum" "" exApproveAt0 400 "deadbeef"
    (Or.inl rfl) (by decide)

/-- Claim C10: cleanup invariant of the polling tool: whatever the
schedule of responses, after request_human_approval returns, the request id
it generated is a key of neither pending_approvals nor completed_approvals
(the fresh request id is assumed not already recorded in
completed_approvals). -/
theorem C10_cleanup_invariant (st : PollingHost.HostState)
    (ticker action reason market_data : String)
    (sched : Nat → List (String × Bool)) (now : Nat) (fresh : String)
    (ha : action = "BUY" ∨ action = "SELL")
    (hc : lookup? st.completed_approvals (mkRequestId ticker action now fresh) = none) :
    containsKey (PollingHost.request_human_approval st ticker action reason
        market_data sched now fresh).state.pending_approvals
        (mkRequestId ticker action now fresh) = false
    ∧ containsKey (PollingHost.request_human_approval st ticker action reason
        market_data sched now fresh).state.completed_approvals
        (mkRequestId ticker action now fresh) = false :=
  ⟨(pollingRun_spec st ticker action reason market_data sched now fresh ha hc).1,
   (pollingRun_spec st ticker action reason market_data sched now fresh ha hc).2.1⟩

/-- Witness for C10 on a concrete approved run: the consumed request is in
neither table afterwards. -/
theorem C10_witness :
    containsKey (PollingHost.request_human_approval
        { pending_approvals := [], completed_approvals := [] }
        "NVDA" "BUY" "macd crossover" "" exApproveAt0 400 "deadbeef").state.pending_approvals
        (mkRequestId "NVDA" "BUY" 400 "deadbeef") = false
    ∧ containsKey (PollingHost.request_human_approval
        { pending_approvals := [], completed_approvals := [] }
        "NVDA" "BUY" "macd crossover" "" exApproveAt0 400 "deadbeef").state.completed_approvals
        (mkRequestId "NVDA" "BUY" 400 "deadbeef") = false :=
  C10_cleanup_invariant { pending_approvals := [], completed_approvals := [] }
    "NVDA" "BUY" "macd crossover" "" exApproveAt0 400 "deadbeef"
    (Or.inl rfl) (by decide)
